import Mathlib

/-!
Verification of the histo-py undo/redo library (src/histo-py/command.py and
src/histo-py/history.py).

The embedding is parametric over three types:
* `α` — the arguments captured by a `CommandInstance` (Python's
  `*args, **kwargs` pair, treated as one opaque value);
* `σ` — the external mutable state the commands act on;
* `ε` — the errors a concrete command's `execute`/`undo`/`redo` may raise.

A command effect is modelled as `α → σ → σ × Option ε`: the resulting
external state paired with `some e` when the Python method raises `e`
(the state component records whatever mutation happened before the raise),
or `none` on normal return.

Stacks: Python's `list` with `append`/`pop()`/`[-1]` is a stack whose top is
the last element; we model each stack as a Lean `List` whose HEAD is the top
of the stack, so Python `xs.append(e)` is `e :: xs`, `xs[-1]` is the head,
and `xs.pop()` drops the head.
-/

namespace HistoPy

/-- The exceptions of history.py (`EmptyHistoryException`,
`NothingToUndoException`, `NothingToRedoException`) plus `cmdErr e` for an
error `e` raised by a concrete command's `execute`/`undo`/`redo` and
propagated verbatim by the history. -/
inductive HistErr (ε : Type) where
  | emptyHistory : HistErr ε
  | nothingToUndo : HistErr ε
  | nothingToRedo : HistErr ε
  | cmdErr : ε → HistErr ε
deriving DecidableEq

variable {α σ ε : Type}

/-- command.py `Command`: a named unit of reversible work.  `redoImpl = none`
models a concrete command that does not override `redo`, so the base-class
default applies (see `Command.redo`); `redoImpl = some f` models an
override. -/
structure Command (α σ ε : Type) where
  name : String
  execute : α → σ → σ × Option ε
  undo : α → σ → σ × Option ε
  redoImpl : Option (α → σ → σ × Option ε)

/-- command.py `Command.redo`: "By default, same as `Command.execute`" —
the base class delegates to `execute` with the same arguments; an overriding
command supplies its own implementation. -/
def Command.redo (c : Command α σ ε) (a : α) (s : σ) : σ × Option ε :=
  match c.redoImpl with
  | some f => f a s
  | none => c.execute a s

/-- command.py `CommandInstance`: an immutable pairing of a command reference
with the invocation arguments captured at submission time. -/
structure CommandInstance (α σ ε : Type) where
  command : Command α σ ε
  args : α

/-- history.py `DoubleStackHistory` state: the primary (applied) stack and
the secondary (redoable) stack.  A fresh history has both empty. -/
structure DoubleStackHistory (α σ ε : Type) where
  primary : List (CommandInstance α σ ε)
  secondary : List (CommandInstance α σ ε)

/-- The result of one history operation: the new stacks, the new external
state, and `some err` when the call raised. -/
structure StepResult (α σ ε : Type) where
  hist : DoubleStackHistory α σ ε
  state : σ
  err : Option (HistErr ε)

/-- history.py `DoubleStackHistory.append`: clear the secondary stack, push
`e` on the primary stack, then run `e.command.execute(*e.args, **e.kwargs)`.
Any error from `execute` propagates; the stack changes are committed first. -/
def DoubleStackHistory.append (h : DoubleStackHistory α σ ε) (s : σ)
    (e : CommandInstance α σ ε) : StepResult α σ ε :=
  let r := e.command.execute e.args s
  { hist := { primary := e :: h.primary, secondary := [] },
    state := r.1,
    err := r.2.map HistErr.cmdErr }

/-- history.py `DoubleStackHistory.back`: if the primary stack is empty,
raise `EmptyHistoryException` when the secondary stack is also empty, else
`NothingToUndoException`.  Otherwise push the top of the primary stack onto
the secondary stack, pop it from the primary stack, then run the command's
`undo`; any error from `undo` propagates after the move is committed. -/
def DoubleStackHistory.back (h : DoubleStackHistory α σ ε) (s : σ) :
    StepResult α σ ε :=
  match h.primary with
  | [] =>
    if h.secondary.isEmpty then ⟨h, s, some HistErr.emptyHistory⟩
    else ⟨h, s, some HistErr.nothingToUndo⟩
  | c :: rest =>
    let r := c.command.undo c.args s
    ⟨⟨rest, c :: h.secondary⟩, r.1, r.2.map HistErr.cmdErr⟩

/-- history.py `DoubleStackHistory.forth`: symmetric to `back`: if the
secondary stack is empty, raise `EmptyHistoryException` when the primary
stack is also empty, else `NothingToRedoException`.  Otherwise move the top
of the secondary stack onto the primary stack and run the command's
`redo`. -/
def DoubleStackHistory.forth (h : DoubleStackHistory α σ ε) (s : σ) :
    StepResult α σ ε :=
  match h.secondary with
  | [] =>
    if h.primary.isEmpty then ⟨h, s, some HistErr.emptyHistory⟩
    else ⟨h, s, some HistErr.nothingToRedo⟩
  | c :: rest =>
    let r := c.command.redo c.args s
    ⟨⟨c :: h.primary, rest⟩, r.1, r.2.map HistErr.cmdErr⟩

/-- history.py `DoubleStackHistory.item`: raise `EmptyHistoryException` when
both stacks are empty; otherwise return the top of the primary stack if it
is non-empty, else the `None` sentinel. -/
def DoubleStackHistory.item (h : DoubleStackHistory α σ ε) :
    Except (HistErr ε) (Option (CommandInstance α σ ε)) :=
  match h.primary, h.secondary with
  | [], [] => Except.error HistErr.emptyHistory
  | [], _ => Except.ok none
  | c :: _, _ => Except.ok (some c)

/-- history.py `DoubleStackHistory.can_undo`: `len(self._primary) > 0`. -/
def DoubleStackHistory.can_undo (h : DoubleStackHistory α σ ε) : Bool :=
  !h.primary.isEmpty

/-- history.py `DoubleStackHistory.can_redo`: `len(self._secondary) > 0`. -/
def DoubleStackHistory.can_redo (h : DoubleStackHistory α σ ε) : Bool :=
  !h.secondary.isEmpty

/-- history.py `DoubleStackHistory.clear`: empty both stacks.  It never
invokes any command (its type does not even mention the external state
`σ`), and it cannot fail. -/
def DoubleStackHistory.clear (_h : DoubleStackHistory α σ ε) :
    DoubleStackHistory α σ ε :=
  ⟨[], []⟩

/-- history.py `DoubleStackHistory.__len__`:
`len(self._primary) + len(self._secondary)`. -/
def DoubleStackHistory.length (h : DoubleStackHistory α σ ε) : Nat :=
  h.primary.length + h.secondary.length

/-- Run a whole list of `append` calls in order, threading the stacks and
the external state (errors from `execute` do not affect the stacks, see
`DoubleStackHistory.append`). -/
def DoubleStackHistory.appendAll (h : DoubleStackHistory α σ ε) (s : σ) :
    List (CommandInstance α σ ε) → DoubleStackHistory α σ ε × σ
  | [] => (h, s)
  | e :: rest =>
    let r := h.append s e
    DoubleStackHistory.appendAll r.hist r.state rest

/-- A concrete well-behaved command over `σ = Nat`: `execute` increments,
`undo` decrements, `redo` left at the base-class default. -/
def incCmd : Command Unit Nat Unit :=
  { name := "inc"
    execute := fun _ s => (s + 1, none)
    undo := fun _ s => (s - 1, none)
    redoImpl := none }

/-- An instance of `incCmd` with trivial arguments. -/
def incCI : CommandInstance Unit Nat Unit := ⟨incCmd, ()⟩

/-- A concrete command whose `undo` always raises (after leaving the state
unchanged). -/
def failUndoCmd : Command Unit Nat Unit :=
  { name := "failing-undo"
    execute := fun _ s => (s + 1, none)
    undo := fun _ s => (s, some ())
    redoImpl := none }

/-- An instance of `failUndoCmd` with trivial arguments. -/
def failUndoCI : CommandInstance Unit Nat Unit := ⟨failUndoCmd, ()⟩

/-- Shape of the stacks after a non-empty batch of `append` calls: the
primary stack holds the new instances (most recent on top) over the old
primary stack, and the secondary stack is cleared. -/
theorem appendAll_shape (l : List (CommandInstance α σ ε)) :
    ∀ (h : DoubleStackHistory α σ ε) (s : σ), l ≠ [] →
      (h.appendAll s l).1 = ⟨l.reverse ++ h.primary, []⟩ := by
  induction l with
  | nil => intro h s hl; exact absurd rfl hl
  | cons e rest ih =>
    intro h s _
    show (DoubleStackHistory.appendAll ⟨e :: h.primary, []⟩ _ rest).1 = _
    rcases rest with _ | ⟨e2, rest2⟩
    · simp [DoubleStackHistory.appendAll]
    · rw [ih ⟨e :: h.primary, []⟩ _ (by simp)]
      simp

/-- C8: for every prior history state, `clear()` leaves both stacks empty,
so `length()` is 0 and `can_undo()` / `can_redo()` are both false; it is a
total pure function on the stacks (it cannot fail and never touches the
external state, hence invokes no command's `undo`). -/
theorem clear_resets (h : DoubleStackHistory α σ ε) :
    h.clear = ⟨[], []⟩ ∧ h.clear.length = 0 ∧
    h.clear.can_undo = false ∧ h.clear.can_redo = false :=
  ⟨rfl, rfl, rfl, rfl⟩

/-- C3: for every non-empty sequence of appends A1..An on an initially
empty history, after all appends `can_undo()` is true, `can_redo()` is
false, `length() = n`, and `item()` returns An (the last appended
instance).  This holds for arbitrary commands: the stack bookkeeping is
committed whether or not an `execute` raises. -/
theorem appends_postcondition (l : List (CommandInstance α σ ε)) (s : σ)
    (hl : l ≠ []) :
    ((⟨[], []⟩ : DoubleStackHistory α σ ε).appendAll s l).1.can_undo = true ∧
    ((⟨[], []⟩ : DoubleStackHistory α σ ε).appendAll s l).1.can_redo = false ∧
    ((⟨[], []⟩ : DoubleStackHistory α σ ε).appendAll s l).1.length = l.length ∧
    ((⟨[], []⟩ : DoubleStackHistory α σ ε).appendAll s l).1.item =
      Except.ok (some (l.getLast hl)) := by
  have hr := appendAll_shape l ⟨[], []⟩ s hl
  rw [List.append_nil] at hr
  have hne : l.reverse ≠ [] := by simpa using hl
  rcases hrev : l.reverse with _ | ⟨c, t⟩
  · exact absurd hrev hne
  · rw [hrev] at hr
    have hc : c = l.getLast hl := by
      have h1 : l.reverse.head? = some (l.getLast hl) := by
        rw [List.head?_reverse, List.getLast?_eq_getLast l hl]
      rw [hrev] at h1
      exact Option.some.inj h1
    refine ⟨by rw [hr]; rfl, by rw [hr]; rfl, ?_, ?_⟩
    · rw [hr]
      show (c :: t).length + ([] : List (CommandInstance α σ ε)).length
          = l.length
      rw [← hrev]
      simp
    · rw [hr, ← hc]
      rfl

/-- Witness for C3: one append of `incCmd` onto the empty history from
state 0 leaves `can_undo`, clears `can_redo`, has length 1, and `item`
returns that instance. -/
theorem appends_postcondition_witness :
    ([incCI] ≠ []) ∧
    (((⟨[], []⟩ : DoubleStackHistory Unit Nat Unit).appendAll 0
        [incCI]).1.can_undo = true ∧
     ((⟨[], []⟩ : DoubleStackHistory Unit Nat Unit).appendAll 0
        [incCI]).1.can_redo = false ∧
     ((⟨[], []⟩ : DoubleStackHistory Unit Nat Unit).appendAll 0
        [incCI]).1.length = [incCI].length ∧
     ((⟨[], []⟩ : DoubleStackHistory Unit Nat Unit).appendAll 0
        [incCI]).1.item =
       Except.ok (some ([incCI].getLast (List.cons_ne_nil _ _)))) :=
  ⟨List.cons_ne_nil _ _,
   appends_postcondition [incCI] 0 (List.cons_ne_nil _ _)⟩

/-- C1 as stated is false: after append(A), append(B), back(), back(),
append(C) on an initially empty history, BOTH A and B sit on the secondary
(redoable) stack when append(C) runs, and `append` clears the whole
secondary stack, so `length()` is 1, not 2.  Counterexample at concrete
instances (A = B = C = `incCI`, initial state 0). -/
theorem branch_discard_counterexample :
    ¬ (let r1 := (⟨[], []⟩ : DoubleStackHistory Unit Nat Unit).append 0 incCI
       let r2 := r1.hist.append r1.state incCI
       let r3 := r2.hist.back r2.state
       let r4 := r3.hist.back r3.state
       let r5 := r4.hist.append r4.state incCI
       r5.hist.can_redo = false ∧ r5.hist.length = 2) := by
  intro h
  exact absurd h.2 (by decide)

/-- C1 amended: after append(A), append(B), back(), back(), append(C) on
an initially empty history, `can_redo()` is false and `length()` is 1 —
only C is retained; A and B are permanently discarded, because both were
moved to the redoable stack by the two back() calls and `append` clears
that stack entirely. -/
theorem branch_discard_amended (A B C : CommandInstance α σ ε) (s : σ) :
    let r1 := (⟨[], []⟩ : DoubleStackHistory α σ ε).append s A
    let r2 := r1.hist.append r1.state B
    let r3 := r2.hist.back r2.state
    let r4 := r3.hist.back r3.state
    let r5 := r4.hist.append r4.state C
    r5.hist.can_redo = false ∧ r5.hist.length = 1 ∧
    r5.hist.primary = [C] ∧ r5.hist.secondary = [] :=
  ⟨rfl, rfl, rfl, rfl⟩

/-- C9: a command that does not override `redo` (`redoImpl = none`) has
`redo` behave exactly as `execute` on the same arguments and state — the
base-class `Command.redo` delegates to `execute`. -/
theorem default_redo_is_execute (c : Command α σ ε)
    (hc : c.redoImpl = none) (a : α) (s : σ) :
    c.redo a s = c.execute a s := by
  unfold Command.redo
  rw [hc]

/-- Witness for C9: `incCmd` does not override `redo`, and its `redo` at
`((), 0)` equals its `execute` there. -/
theorem default_redo_is_execute_witness :
    incCmd.redoImpl = none ∧ incCmd.redo () 0 = incCmd.execute () 0 :=
  ⟨rfl, default_redo_is_execute incCmd rfl () 0⟩

/-- C2: undo/redo round-trip.  If A's `undo` returns the history to the
pre-execute state and A's `redo` reproduces the post-execute state
(well-behaved undo/redo), then append(A), back(), forth() on an initially
empty history leaves `item()` returning A, `can_undo()` true, `can_redo()`
false, and the external state identical to right after the original
append. -/
theorem undo_redo_roundtrip (A : CommandInstance α σ ε) (s0 : σ)
    (hundo : (A.command.undo A.args (A.command.execute A.args s0).1).1 = s0)
    (hredo : (A.command.redo A.args s0).1 = (A.command.execute A.args s0).1) :
    let r1 := (⟨[], []⟩ : DoubleStackHistory α σ ε).append s0 A
    let r2 := r1.hist.back r1.state
    let r3 := r2.hist.forth r2.state
    r3.hist.item = Except.ok (some A) ∧ r3.hist.can_undo = true ∧
    r3.hist.can_redo = false ∧ r3.state = r1.state := by
  refine ⟨rfl, rfl, rfl, ?_⟩
  show (A.command.redo A.args
      (A.command.undo A.args (A.command.execute A.args s0).1).1).1
    = (A.command.execute A.args s0).1
  rw [hundo, hredo]

/-- Witness for C2: the increment command at state 0 satisfies the
well-behavedness hypotheses and the round-trip conclusion. -/
theorem undo_redo_roundtrip_witness :
    ((incCI.command.undo incCI.args
        (incCI.command.execute incCI.args 0).1).1 = 0) ∧
    ((incCI.command.redo incCI.args 0).1
        = (incCI.command.execute incCI.args 0).1) ∧
    (let r1 := (⟨[], []⟩ : DoubleStackHistory Unit Nat Unit).append 0 incCI
     let r2 := r1.hist.back r1.state
     let r3 := r2.hist.forth r2.state
     r3.hist.item = Except.ok (some incCI) ∧ r3.hist.can_undo = true ∧
     r3.hist.can_redo = false ∧ r3.state = r1.state) :=
  ⟨rfl, rfl, undo_redo_roundtrip incCI 0 rfl rfl⟩

/-- C4: on a fresh (empty) history, `back()`, `forth()` and `item()` all
raise `EmptyHistoryException`; and in general each of the three raises
`EmptyHistoryException` if and only if both stacks are empty (a non-empty
history can only raise the other two structural exceptions or a command
error). -/
theorem empty_history_errors :
    (∀ s : σ, ((⟨[], []⟩ : DoubleStackHistory α σ ε).back s).err
        = some HistErr.emptyHistory) ∧
    (∀ s : σ, ((⟨[], []⟩ : DoubleStackHistory α σ ε).forth s).err
        = some HistErr.emptyHistory) ∧
    ((⟨[], []⟩ : DoubleStackHistory α σ ε).item
        = Except.error HistErr.emptyHistory) ∧
    (∀ (h : DoubleStackHistory α σ ε) (s : σ),
      ((h.back s).err = some HistErr.emptyHistory ↔
        h.primary = [] ∧ h.secondary = [])) ∧
    (∀ (h : DoubleStackHistory α σ ε) (s : σ),
      ((h.forth s).err = some HistErr.emptyHistory ↔
        h.primary = [] ∧ h.secondary = [])) ∧
    (∀ h : DoubleStackHistory α σ ε,
      (h.item = Except.error HistErr.emptyHistory ↔
        h.primary = [] ∧ h.secondary = [])) := by
  refine ⟨fun s => rfl, fun s => rfl, rfl, ?_, ?_, ?_⟩
  · rintro ⟨p, sec⟩ s
    cases p with
    | nil =>
      cases sec with
      | nil => simp [DoubleStackHistory.back]
      | cons x xs => simp [DoubleStackHistory.back]
    | cons c rest =>
      rcases hu : (c.command.undo c.args s).2 with _ | e <;>
        simp [DoubleStackHistory.back, hu]
  · rintro ⟨p, sec⟩ s
    cases sec with
    | nil =>
      cases p with
      | nil => simp [DoubleStackHistory.forth]
      | cons x xs => simp [DoubleStackHistory.forth]
    | cons c rest =>
      rcases hu : (c.command.redo c.args s).2 with _ | e <;>
        simp [DoubleStackHistory.forth, hu]
  · rintro ⟨p, sec⟩
    cases p with
    | nil =>
      cases sec with
      | nil => simp [DoubleStackHistory.item]
      | cons x xs => simp [DoubleStackHistory.item]
    | cons c rest => simp [DoubleStackHistory.item]

/-- C5: after append(A) then back() on an initially empty history, a
further back() raises `NothingToUndoException` (and changes neither the
stacks nor the external state), `item()` returns the `None` sentinel, and
`can_redo()` is true.  In general back() raises `NothingToUndoException`
exactly when the primary stack is empty and the secondary stack is not. -/
theorem exhausted_undo_boundary (A : CommandInstance α σ ε) (s : σ) :
    let r1 := (⟨[], []⟩ : DoubleStackHistory α σ ε).append s A
    let r2 := r1.hist.back r1.state
    (r2.hist.back r2.state).err = some HistErr.nothingToUndo ∧
    (r2.hist.back r2.state).hist = r2.hist ∧
    (r2.hist.back r2.state).state = r2.state ∧
    r2.hist.item = Except.ok none ∧
    r2.hist.can_redo = true ∧
    (∀ (h : DoubleStackHistory α σ ε) (t : σ),
      ((h.back t).err = some HistErr.nothingToUndo ↔
        h.primary = [] ∧ h.secondary ≠ [])) := by
  refine ⟨rfl, rfl, rfl, rfl, rfl, ?_⟩
  rintro ⟨p, sec⟩ t
  cases p with
  | nil =>
    cases sec with
    | nil => simp [DoubleStackHistory.back]
    | cons x xs => simp [DoubleStackHistory.back]
  | cons c rest =>
    rcases hu : (c.command.undo c.args t).2 with _ | e <;>
      simp [DoubleStackHistory.back, hu]

/-- C6: from the state reached by append(A), back() on an initially empty
history, a forth() succeeds (raises nothing, provided A's `redo` does not
raise there) and a further forth() raises `NothingToRedoException`.  In
general forth() raises `NothingToRedoException` exactly when the secondary
stack is empty and the primary stack is not. -/
theorem exhausted_redo_boundary (A : CommandInstance α σ ε) (s : σ)
    (hredo : (A.command.redo A.args
        ((A.command.undo A.args ((A.command.execute A.args s).1)).1)).2
      = none) :
    let r1 := (⟨[], []⟩ : DoubleStackHistory α σ ε).append s A
    let r2 := r1.hist.back r1.state
    let r3 := r2.hist.forth r2.state
    r3.err = none ∧
    (r3.hist.forth r3.state).err = some HistErr.nothingToRedo ∧
    (∀ (h : DoubleStackHistory α σ ε) (t : σ),
      ((h.forth t).err = some HistErr.nothingToRedo ↔
        h.secondary = [] ∧ h.primary ≠ [])) := by
  refine ⟨?_, rfl, ?_⟩
  · show (A.command.redo A.args
        ((A.command.undo A.args ((A.command.execute A.args s).1)).1)).2.map
      HistErr.cmdErr = none
    rw [hredo]
    rfl
  · rintro ⟨p, sec⟩ t
    cases sec with
    | nil =>
      cases p with
      | nil => simp [DoubleStackHistory.forth]
      | cons x xs => simp [DoubleStackHistory.forth]
    | cons c rest =>
      rcases hu : (c.command.redo c.args t).2 with _ | e <;>
        simp [DoubleStackHistory.forth, hu]

/-- Witness for C6: the increment command at state 0 has a non-raising
`redo` at the relevant state, the first forth() raises nothing, and the
second forth() raises `NothingToRedoException`. -/
theorem exhausted_redo_boundary_witness :
    ((incCI.command.redo incCI.args
        ((incCI.command.undo incCI.args
          ((incCI.command.execute incCI.args 0).1)).1)).2 = none) ∧
    (let r1 := (⟨[], []⟩ : DoubleStackHistory Unit Nat Unit).append 0 incCI
     let r2 := r1.hist.back r1.state
     let r3 := r2.hist.forth r2.state
     r3.err = none ∧
     (r3.hist.forth r3.state).err = some HistErr.nothingToRedo) :=
  ⟨rfl, (exhausted_redo_boundary incCI 0 rfl).1,
   (exhausted_redo_boundary incCI 0 rfl).2.1⟩

/-- C7: error atomicity.  Each operation commits its stack changes before
invoking the command, catches nothing, and propagates the command's error
verbatim (wrapped as `cmdErr`): `append` has already cleared the secondary
stack and pushed the instance; `back`/`forth` have already moved the
instance between the stacks.  The resulting stacks do not depend on
whether the command raised. -/
theorem error_atomicity :
    (∀ (h : DoubleStackHistory α σ ε) (s : σ) (e : CommandInstance α σ ε),
      (h.append s e).hist = ⟨e :: h.primary, []⟩ ∧
      (h.append s e).state = (e.command.execute e.args s).1 ∧
      (h.append s e).err
        = (e.command.execute e.args s).2.map HistErr.cmdErr) ∧
    (∀ (c : CommandInstance α σ ε)
        (rest sec : List (CommandInstance α σ ε)) (s : σ),
      ((⟨c :: rest, sec⟩ : DoubleStackHistory α σ ε).back s).hist
          = ⟨rest, c :: sec⟩ ∧
      ((⟨c :: rest, sec⟩ : DoubleStackHistory α σ ε).back s).state
          = (c.command.undo c.args s).1 ∧
      ((⟨c :: rest, sec⟩ : DoubleStackHistory α σ ε).back s).err
          = (c.command.undo c.args s).2.map HistErr.cmdErr) ∧
    (∀ (c : CommandInstance α σ ε)
        (ap sec : List (CommandInstance α σ ε)) (s : σ),
      ((⟨ap, c :: sec⟩ : DoubleStackHistory α σ ε).forth s).hist
          = ⟨c :: ap, sec⟩ ∧
      ((⟨ap, c :: sec⟩ : DoubleStackHistory α σ ε).forth s).state
          = (c.command.redo c.args s).1 ∧
      ((⟨ap, c :: sec⟩ : DoubleStackHistory α σ ε).forth s).err
          = (c.command.redo c.args s).2.map HistErr.cmdErr) :=
  ⟨fun _ _ _ => ⟨rfl, rfl, rfl⟩,
   fun _ _ _ _ => ⟨rfl, rfl, rfl⟩,
   fun _ _ _ _ => ⟨rfl, rfl, rfl⟩⟩

/-- C10: when `undo` raises during back() on a history with a non-empty
primary stack, the moved instance ends up on the secondary stack only (it
was already removed from the primary stack), the error propagates as
raised, `length()` is unchanged, and `can_redo()` is true. -/
theorem back_undo_failure (c : CommandInstance α σ ε)
    (rest sec : List (CommandInstance α σ ε)) (s : σ) (e : ε)
    (hfail : (c.command.undo c.args s).2 = some e) :
    ((⟨c :: rest, sec⟩ : DoubleStackHistory α σ ε).back s).hist.primary
        = rest ∧
    ((⟨c :: rest, sec⟩ : DoubleStackHistory α σ ε).back s).hist.secondary
        = c :: sec ∧
    ((⟨c :: rest, sec⟩ : DoubleStackHistory α σ ε).back s).err
        = some (HistErr.cmdErr e) ∧
    ((⟨c :: rest, sec⟩ : DoubleStackHistory α σ ε).back s).hist.length
        = (⟨c :: rest, sec⟩ : DoubleStackHistory α σ ε).length ∧
    ((⟨c :: rest, sec⟩ : DoubleStackHistory α σ ε).back s).hist.can_redo
        = true := by
  refine ⟨rfl, rfl, ?_, ?_, rfl⟩
  · show (c.command.undo c.args s).2.map HistErr.cmdErr
        = some (HistErr.cmdErr e)
    rw [hfail]
    rfl
  · show rest.length + (c :: sec).length = (c :: rest).length + sec.length
    simp only [List.length_cons]
    omega

/-- Witness for C10: `failUndoCI`, whose `undo` always raises, at state 0
on the one-element history. -/
theorem back_undo_failure_witness :
    ((failUndoCI.command.undo failUndoCI.args 0).2 = some ()) ∧
    (((⟨[failUndoCI], []⟩ : DoubleStackHistory Unit Nat Unit).back
        0).hist.primary = [] ∧
     ((⟨[failUndoCI], []⟩ : DoubleStackHistory Unit Nat Unit).back
        0).hist.secondary = [failUndoCI] ∧
     ((⟨[failUndoCI], []⟩ : DoubleStackHistory Unit Nat Unit).back
        0).err = some (HistErr.cmdErr ()) ∧
     ((⟨[failUndoCI], []⟩ : DoubleStackHistory Unit Nat Unit).back
        0).hist.length
        = (⟨[failUndoCI], []⟩ : DoubleStackHistory Unit Nat Unit).length ∧
     ((⟨[failUndoCI], []⟩ : DoubleStackHistory Unit Nat Unit).back
        0).hist.can_redo = true) :=
  ⟨rfl, back_undo_failure failUndoCI [] [] 0 () rfl⟩

end HistoPy
